import Mathlib

/-!
# Verification of the autonomous-coding CLI orchestrator

A shallow embedding of `cli/orchestrator.py` (the session-orchestration state
machine of the autonomous-coding harness) together with proofs about its
behaviour: the maturity detector, the spec-phase gate, and the main session
loop with its QA follow-up policy and iteration cap.

External effects (subprocess invocations of the `claude` and `git` binaries,
operator keyboard input, and the files the agent sessions create) are modelled
as explicit oracle inputs, so every function here is executable; exceptions in
the Python source are modelled with `Except`.
-/

namespace AutoCode

/-- `ProjectMaturity` type alias from orchestrator.py line 27. -/
inductive ProjectMaturity where
  | greenfield
  | existing
deriving DecidableEq

/-- The Python exceptions relevant to the orchestrator's handlers. -/
inductive PyExc where
  | timeoutExpired     -- subprocess.TimeoutExpired
  | valueError         -- ValueError (e.g. from int() on a non-numeric string)
  | fileNotFoundError  -- FileNotFoundError (executable absent from PATH)
deriving DecidableEq

/-- Outcome of the `git rev-list --count HEAD` subprocess invocation
(orchestrator.py lines 101-107): it can exceed its 10-second timeout, fail to
start because the `git` executable is absent from the execution path, or
finish with an exit code and captured stdout. -/
inductive GitQueryResult where
  | timeout
  | execNotFound
  | finished (returncode : Int) (stdout : String)
deriving DecidableEq

/-- Abstraction of the project directory as read by
`detect_project_maturity`: whether a `.git` directory is present, the outcome
of the commit-count subprocess, and the file names `Path.rglob` yields for
each extension pattern (in the repository's traversal order). -/
structure DirModel where
  hasGit : Bool
  gitQuery : GitQueryResult
  rglob : String → List String

/-- The `details` dict built by `detect_project_maturity`
(orchestrator.py lines 87-92). -/
structure Details where
  has_git : Bool
  commit_count : Int
  source_files_found : List String
  detected_languages : List String
deriving DecidableEq

/-- Python `str.strip()`, modelled for ASCII whitespace and implemented on
the character list so that it evaluates by kernel reduction. -/
def pyStrip (s : String) : String :=
  ⟨((s.data.dropWhile Char.isWhitespace).reverse.dropWhile
      Char.isWhitespace).reverse⟩

/-- One or more ASCII decimal digits read into a number; `none` otherwise. -/
def decDigits (cs : List Char) : Option Nat :=
  match cs with
  | [] => none
  | _ => cs.foldlM (fun n c => if c.isDigit then some (n * 10 + (c.toNat - 48)) else none) 0

/-- Python `int()` on an already-stripped string, modelled for an optional
ASCII sign followed by decimal digits (the shape `git rev-list --count`
produces); `none` models `int()` raising `ValueError`. -/
def pyInt (s : String) : Option Int :=
  match s.data with
  | '-' :: rest => (decDigits rest).map (fun n => -(n : Int))
  | '+' :: rest => (decDigits rest).map (fun n => (n : Int))
  | cs => (decDigits cs).map (fun n => (n : Int))

/-- The try-block of orchestrator.py lines 100-109: run
`git rev-list --count HEAD` and, on a zero exit code, set the commit count to
`int(result.stdout.strip())`.  The block raises `TimeoutExpired` on timeout,
`FileNotFoundError` when the `git` executable is absent, and `ValueError`
when the stripped stdout is non-numeric; on a non-zero exit code the commit
count keeps its initial value 0. -/
def commitCountTry (q : GitQueryResult) : Except PyExc Int :=
  match q with
  | .timeout => .error .timeoutExpired
  | .execNotFound => .error .fileNotFoundError
  | .finished rc out =>
    if rc = 0 then
      match pyInt (pyStrip out) with
      | some n => .ok n
      | none => .error .valueError
    else .ok 0

/-- The `source_extensions` dict of orchestrator.py lines 114-125, in
insertion order. -/
def source_extensions : List (String × String) :=
  [(".py", "Python"), (".js", "JavaScript"), (".ts", "TypeScript"),
   (".tsx", "TypeScript/React"), (".jsx", "JavaScript/React"),
   (".go", "Go"), (".rs", "Rust"), (".java", "Java"),
   (".rb", "Ruby"), (".php", "PHP")]

/-- The source-file scan of orchestrator.py lines 127-135, threading the
`(source_files_found, detected_languages)` accumulators exactly as the Python
loop mutates them: per extension, take at most 5 rglob matches, and if any
exist extend the found list with the first 3 and record the language once. -/
def collectLoop (d : DirModel) :
    List (String × String) → List String × List String → List String × List String
  | [], acc => acc
  | (ext, lang) :: rest, (found, langs) =>
    if ((d.rglob ext).take 5) = [] then
      collectLoop d rest (found, langs)
    else
      collectLoop d rest
        (found ++ ((d.rglob ext).take 5).take 3,
         if lang ∈ langs then langs else langs ++ [lang])

/-- Runs the source-file scan over all recognized extensions. -/
def collectSources (d : DirModel) : List String × List String :=
  collectLoop d source_extensions ([], [])

/-- `detect_project_maturity` (orchestrator.py lines 70-147).  The handler at
line 110 catches exactly `subprocess.TimeoutExpired` and `ValueError`, leaving
the commit count 0; any other exception from the try-block (notably
`FileNotFoundError` when `.git` exists but the `git` executable is absent)
propagates out of the function, which the `Except` result records. -/
def detect_project_maturity (d : DirModel) :
    Except PyExc (ProjectMaturity × Details) :=
  match (if d.hasGit then
           match commitCountTry d.gitQuery with
           | .ok n => .ok n
           | .error .timeoutExpired => .ok 0
           | .error .valueError => .ok 0
           | .error e => .error e
         else (.ok 0 : Except PyExc Int)) with
  | .error e => .error e
  | .ok commit_count =>
    .ok (if d.hasGit = true ∧ 5 ≤ commit_count ∧ 0 < (collectSources d).1.length
           then ProjectMaturity.existing else ProjectMaturity.greenfield,
         ⟨d.hasGit, commit_count, (collectSources d).1, (collectSources d).2⟩)

/-! ## Filesystem and session models -/

/-- The two files in the project directory that drive the orchestrator's
control flow: `app_spec.txt` (the spec artifact) and `feature_list.json`
(the manifest artifact). -/
structure FS where
  spec : Bool
  manifest : Bool
deriving DecidableEq

/-- Outcome of a captured `claude` subprocess invocation
(`run_cli_session` / `run_qa_session`): the process completes with an exit
code, fails to start because the `claude` executable is absent
(`FileNotFoundError`), or raises some other exception. -/
inductive SubprocResult where
  | completed (returncode : Int)
  | binNotFound
  | otherExc (msg : String)

/-- `run_cli_session` (orchestrator.py lines 272-312): returns
`("", returncode)` when the subprocess completes, and a diagnostic with
code 1 when the `claude` executable is missing or another exception is
raised — it never propagates a fault. -/
def run_cli_session (r : SubprocResult) : String × Int :=
  match r with
  | .completed rc => ("", rc)
  | .binNotFound => ("claude CLI not found", 1)
  | .otherExc e => (e, 1)

/-- `run_qa_session` (orchestrator.py lines 315-365); identical outcome
handling to `run_cli_session`. -/
def run_qa_session (r : SubprocResult) : String × Int :=
  match r with
  | .completed rc => ("", rc)
  | .binNotFound => ("claude CLI not found", 1)
  | .otherExc e => (e, 1)

/-- An agent session only changes the project directory when its process
actually started; a `FileNotFoundError` or other startup exception leaves the
filesystem as it was. -/
def applySessionEffect (r : SubprocResult) (eff : FS → FS) (fs : FS) : FS :=
  match r with
  | .completed _ => eff fs
  | _ => fs

/-- Outcome of an interactive `claude` session (`run_interactive_spec_generation`
/ `run_interactive_audit`): either the session ran and ended — by the agent
exiting or by the operator's Ctrl+C, which the source catches — or the
`claude` executable was absent (`FileNotFoundError`). -/
inductive InteractiveResult where
  | ended
  | binNotFound

/-- An interactive spec-phase session as the environment provides it: how the
subprocess ended, and the state of the project directory after an actually-run
session (the external agent may write any files, including `app_spec.txt`). -/
structure InteractiveSessionEnv where
  result : InteractiveResult
  fsAfter : FS

/-- `run_interactive_spec_generation` (orchestrator.py lines 150-205): run the
interactive session, then report success iff `app_spec.txt` exists afterwards;
a missing `claude` executable returns `False` immediately. -/
def run_interactive_spec_generation (s : InteractiveSessionEnv) (fs : FS) :
    Bool × FS :=
  match s.result with
  | .binNotFound => (false, fs)
  | .ended => (s.fsAfter.spec, s.fsAfter)

/-- `run_interactive_audit` (orchestrator.py lines 208-269): identical gate
structure to `run_interactive_spec_generation`. -/
def run_interactive_audit (s : InteractiveSessionEnv) (fs : FS) : Bool × FS :=
  match s.result with
  | .binNotFound => (false, fs)
  | .ended => (s.fsAfter.spec, s.fsAfter)

/-- Outcome of the captured spec-generation subprocess used by
`run_non_interactive_spec_generation`. -/
inductive CapturedResult where
  | completed (returncode : Int) (stdout : String)
  | binNotFound

/-- `run_non_interactive_spec_generation` (orchestrator.py lines 368-446):
fails on a non-zero exit code or empty stripped output; otherwise writes the
captured text to `app_spec.txt` and succeeds. -/
def run_non_interactive_spec_generation (r : CapturedResult) (fs : FS) :
    Bool × FS :=
  match r with
  | .binNotFound => (false, fs)
  | .completed rc out =>
    if rc ≠ 0 then (false, fs)
    else if pyStrip out = "" then (false, fs)
    else (true, { fs with spec := true })

/-! ## The autonomous agent run -/

/-- The configuration arguments of `run_autonomous_agent` that take part in
control flow (orchestrator.py lines 449-456): the iteration cap, the optional
pre-supplied description, and the non-interactive and audit flags. -/
structure RunConfig where
  max_iterations : Option Int
  description : Option String
  non_interactive : Bool
  audit : Bool

/-- The oracle for everything outside the orchestrator process: operator
keyboard input (`none` models `input()` raising `EOFError`), the one
spec-phase session of the run, and per-iteration coding/QA subprocess
outcomes together with the filesystem effects of sessions that ran. -/
structure Env where
  auditChoice : Option String
  descInput : Option String
  auditSession : InteractiveSessionEnv
  interviewSession : InteractiveSessionEnv
  nonInteractiveGen : CapturedResult
  codingProc : Nat → SubprocResult
  qaProc : Nat → SubprocResult
  codingEff : Nat → FS → FS
  qaEff : Nat → FS → FS

/-- Which spec-phase session `run_autonomous_agent` invoked. -/
inductive SpecEvent where
  | auditSession
  | interviewSession
  | nonInteractiveSession
deriving DecidableEq

/-- Why `run_autonomous_agent` returned before entering the main loop. -/
inductive HaltReason where
  | specNotCreated
  | noDescription
  | emptyDescription
deriving DecidableEq

/-- The repeated `if not spec_created: ... return` gate after each spec-phase
session (orchestrator.py lines 502-504, 529-531, 546-548, 567-569). -/
def gateOn (ev : SpecEvent) (res : Bool × FS) :
    List SpecEvent × Except HaltReason FS :=
  ([ev], if res.1 = true then .ok res.2 else .error HaltReason.specNotCreated)

/-- Resolution of the project description (orchestrator.py lines 534-543 and
551-561): use the configured description if any, otherwise prompt the
operator and strip the reply; `EOFError` halts the run. -/
def resolveDescription (cfg : RunConfig) (env : Env) : Option String :=
  match cfg.description with
  | some d => some d
  | none =>
    match env.descInput with
    | some s => some (pyStrip s)
    | none => none

/-- Step 1 of `run_autonomous_agent` (orchestrator.py lines 490-571): when
`app_spec.txt` is absent, select and run exactly one spec-phase session
(audit when the `--audit` flag is set; the interactive audit-vs-fresh choice
for existing projects, defaulting to audit; otherwise interactive or
non-interactive spec generation), and halt unless the spec file exists
afterwards.  Returns the spec sessions run and either a halt reason or the
filesystem in which the main loop starts. -/
def specPhase (cfg : RunConfig) (maturity : ProjectMaturity) (env : Env)
    (fs : FS) : List SpecEvent × Except HaltReason FS :=
  if fs.spec then ([], .ok fs)
  else if cfg.audit then
    gateOn .auditSession (run_interactive_audit env.auditSession fs)
  else if maturity = ProjectMaturity.existing ∧ cfg.non_interactive = false then
    if pyStrip (env.auditChoice.getD "1") ≠ "2" then
      gateOn .auditSession (run_interactive_audit env.auditSession fs)
    else
      match resolveDescription cfg env with
      | none => ([], .error HaltReason.noDescription)
      | some desc =>
        if desc = "" then ([], .error HaltReason.emptyDescription)
        else
          gateOn .interviewSession
            (run_interactive_spec_generation env.interviewSession fs)
  else
    match resolveDescription cfg env with
    | none => ([], .error HaltReason.noDescription)
    | some desc =>
      if desc = "" then ([], .error HaltReason.emptyDescription)
      else if cfg.non_interactive then
        gateOn .nonInteractiveSession
          (run_non_interactive_spec_generation env.nonInteractiveGen fs)
      else
        gateOn .interviewSession
          (run_interactive_spec_generation env.interviewSession fs)

/-- The prompt roles a main-loop session can run with. -/
inductive Role where
  | initializer
  | enhancer
  | coding
deriving DecidableEq

/-- One main-loop iteration as observed by the operator: the session header
(iteration number and the `is_first_run` flag passed to it), the prompt role,
the `run_cli_session` result, and the QA follow-up result when one was
invoked.  `fsAtStart` records the actual directory state when the turn began. -/
structure Turn where
  iteration : Nat
  fsAtStart : FS
  headerFirstRun : Bool
  role : Role
  output : String
  returncode : Int
  qa : Option (String × Int)
deriving DecidableEq

/-- The iteration-cap check `if max_iterations and iteration > max_iterations`
(orchestrator.py line 620), with Python truthiness: `None` and `0` are both
falsy, so neither ever triggers the break. -/
def capReached (cap : Option Int) (iteration : Nat) : Bool :=
  match cap with
  | none => false
  | some m => m ≠ 0 && (iteration : Int) > m

/-- The body of one main-loop iteration (orchestrator.py lines 625-669): run
the coding session; on exit code 0, run the QA follow-up unless this is
iteration 1 of a first run; on a non-zero exit, log and skip QA.  Returns the
observed turn and the directory state afterwards. -/
def runTurn (env : Env) (isFirstRun : Bool) (role : Role) (it : Nat)
    (fs : FS) : Turn × FS :=
  if (run_cli_session (env.codingProc it)).2 = 0 ∧
      (isFirstRun = false ∨ 1 < it) then
    (⟨it, fs, isFirstRun, role, (run_cli_session (env.codingProc it)).1,
       (run_cli_session (env.codingProc it)).2,
       some (run_qa_session (env.qaProc it))⟩,
     applySessionEffect (env.qaProc it) (env.qaEff it)
       (applySessionEffect (env.codingProc it) (env.codingEff it) fs))
  else
    (⟨it, fs, isFirstRun, role, (run_cli_session (env.codingProc it)).1,
       (run_cli_session (env.codingProc it)).2, none⟩,
     applySessionEffect (env.codingProc it) (env.codingEff it) fs)

/-- The main `while True` loop (orchestrator.py lines 613-674), fuel-indexed
because the source loop is unbounded: each step increments the iteration,
breaks when the cap is reached, and otherwise runs one turn — with the pending
first-run prompt on the first turn, cleared unconditionally afterwards
(line 631), and the coding prompt on every later turn.  Returns the turns run
and whether the loop halted on the iteration cap (`false` when the fuel ran
out with the loop still going). -/
def runLoop (cap : Option Int) (env : Env) (isFirstRun : Bool) :
    Option Role → FS → Nat → Nat → List Turn × Bool
  | _, _, _, 0 => ([], false)
  | firstRole, fs, i, fuel + 1 =>
    if capReached cap (i + 1) then ([], true)
    else
      ((runTurn env isFirstRun (firstRole.getD Role.coding) (i + 1) fs).1 ::
         (runLoop cap env isFirstRun none
            (runTurn env isFirstRun (firstRole.getD Role.coding) (i + 1) fs).2
            (i + 1) fuel).1,
       (runLoop cap env isFirstRun none
          (runTurn env isFirstRun (firstRole.getD Role.coding) (i + 1) fs).2
          (i + 1) fuel).2)

/-- First-run prompt selection (orchestrator.py lines 578-599): when the
manifest is absent the pending prompt is the enhancer for an existing project
and the initializer otherwise; when the manifest exists there is no pending
first prompt. -/
def firstRoleFor (isFirstRun : Bool) (m : ProjectMaturity) : Option Role :=
  if isFirstRun then
    some (if m = ProjectMaturity.existing then Role.enhancer else Role.initializer)
  else none

/-- Result of a whole `run_autonomous_agent` call: either the spec gate
halted the run before any main-loop session, or the main loop ran.  Both
record which spec-phase sessions were invoked; `finished` also records the
`is_first_run` flag computed at line 575, the directory state when the loop
began, the turns run, and whether the loop halted on the iteration cap. -/
inductive RunResult where
  | specGateHalt (specEvents : List SpecEvent) (reason : HaltReason)
  | finished (specEvents : List SpecEvent) (isFirstRun : Bool)
      (fsAtLoopStart : FS) (turns : List Turn) (haltedByCap : Bool)
deriving DecidableEq

/-- `run_autonomous_agent` (orchestrator.py lines 449-694): detect maturity
once (an exception from the detector propagates, line 488), run the spec
phase, compute `is_first_run` from `feature_list.json` (line 575), select the
pending first-run prompt, and drive the main loop. -/
def run_autonomous_agent (d : DirModel) (cfg : RunConfig) (env : Env)
    (fs0 : FS) (fuel : Nat) : Except PyExc RunResult :=
  match detect_project_maturity d with
  | .error e => .error e
  | .ok (maturity, _) =>
    match (specPhase cfg maturity env fs0).2 with
    | .error r => .ok (.specGateHalt (specPhase cfg maturity env fs0).1 r)
    | .ok fs1 =>
      .ok (.finished (specPhase cfg maturity env fs0).1 (!fs1.manifest) fs1
        (runLoop cfg.max_iterations env (!fs1.manifest)
          (firstRoleFor (!fs1.manifest) maturity) fs1 0 fuel).1
        (runLoop cfg.max_iterations env (!fs1.manifest)
          (firstRoleFor (!fs1.manifest) maturity) fs1 0 fuel).2)

/-! ## Structural lemmas about the main loop -/

/-- Number of iterations the cap check permits, starting after iteration `i`,
with the given fuel. -/
def capLen (cap : Option Int) : Nat → Nat → Nat
  | _, 0 => 0
  | i, fuel + 1 =>
    if capReached cap (i + 1) then 0 else capLen cap (i + 1) fuel + 1

/-- Whether the loop hits the iteration-cap break within the given fuel,
starting after iteration `i`. -/
def capHalted (cap : Option Int) : Nat → Nat → Bool
  | _, 0 => false
  | i, fuel + 1 =>
    if capReached cap (i + 1) then true else capHalted cap (i + 1) fuel

/-- The turn record a loop iteration produces, in closed form. -/
theorem runTurn_fields (env : Env) (fr : Bool) (role : Role) (it : Nat)
    (fs : FS) :
    (runTurn env fr role it fs).1 =
      ⟨it, fs, fr, role, (run_cli_session (env.codingProc it)).1,
        (run_cli_session (env.codingProc it)).2,
        if (run_cli_session (env.codingProc it)).2 = 0 ∧ (fr = false ∨ 1 < it)
          then some (run_qa_session (env.qaProc it)) else none⟩ := by
  unfold runTurn
  split <;> rfl

/-- The iteration numbers of the turns the loop runs are consecutive,
starting at `i + 1`, and how many there are depends only on the cap and the
fuel — never on session outcomes. -/
theorem runLoop_iterations (cap : Option Int) (env : Env) (fr : Bool) :
    ∀ (fuel i : Nat) (r : Option Role) (fs : FS),
      ((runLoop cap env fr r fs i fuel).1).map Turn.iteration =
        List.range' (i + 1) (capLen cap i fuel) := by
  intro fuel
  induction fuel with
  | zero => intro i r fs; rfl
  | succ f ih =>
    intro i r fs
    unfold runLoop capLen
    split
    · rfl
    · simp only [List.map_cons, ih, runTurn_fields, List.range'_succ]

/-- Per-turn facts that hold for every turn the loop emits: the header flag
is the cached `is_first_run` value, output and return code come from
`run_cli_session` at that iteration, the QA follow-up is invoked exactly when
the return code is 0 and this is not iteration 1 of a first run, the role is
the pending first-run prompt on the first iteration and the coding prompt on
every later one, and iterations stay above `i`. -/
theorem runLoop_turn_facts (cap : Option Int) (env : Env) (fr : Bool) :
    ∀ (fuel i : Nat) (r : Option Role) (fs : FS),
      ∀ t ∈ (runLoop cap env fr r fs i fuel).1,
        t.headerFirstRun = fr ∧
        t.output = (run_cli_session (env.codingProc t.iteration)).1 ∧
        t.returncode = (run_cli_session (env.codingProc t.iteration)).2 ∧
        t.qa = (if t.returncode = 0 ∧ (fr = false ∨ 1 < t.iteration)
                  then some (run_qa_session (env.qaProc t.iteration)) else none) ∧
        t.role = (if t.iteration = i + 1 then r.getD Role.coding else Role.coding) ∧
        i + 1 ≤ t.iteration ∧
        (t.iteration = i + 1 → t.fsAtStart = fs) := by
  intro fuel
  induction fuel with
  | zero => intro i r fs t ht; exact absurd ht (by simp [runLoop])
  | succ f ih =>
    intro i r fs t ht
    rw [runLoop] at ht
    split at ht
    · exact absurd ht (by simp)
    · rcases List.mem_cons.mp ht with h | h
      · subst h
        rw [runTurn_fields]
        refine ⟨rfl, rfl, rfl, rfl, ?_, le_refl _, fun _ => rfl⟩
        simp
      · obtain ⟨h1, h2, h3, h4, h5, h6, h7⟩ := ih (i + 1) none _ t h
        refine ⟨h1, h2, h3, h4, ?_, by omega, fun he => absurd he (by omega)⟩
        rw [h5]
        have hne : t.iteration ≠ i + 1 := by omega
        simp [hne]

/-- Whether the loop broke on the iteration cap depends only on the cap and
the fuel. -/
theorem runLoop_halted (cap : Option Int) (env : Env) (fr : Bool) :
    ∀ (fuel i : Nat) (r : Option Role) (fs : FS),
      (runLoop cap env fr r fs i fuel).2 = capHalted cap i fuel := by
  intro fuel
  induction fuel with
  | zero => intro i r fs; rfl
  | succ f ih =>
    intro i r fs
    unfold runLoop capHalted
    split
    · rfl
    · exact ih (i + 1) none _

/-- With no pending first-run prompt, every turn runs the coding prompt. -/
theorem runLoop_none_coding (cap : Option Int) (env : Env) (fr : Bool)
    (fuel i : Nat) (fs : FS) :
    ∀ t ∈ (runLoop cap env fr none fs i fuel).1, t.role = Role.coding := by
  intro t ht
  obtain ⟨-, -, -, -, h5, -, -⟩ := runLoop_turn_facts cap env fr fuel i none fs t ht
  rw [h5]
  simp

/-- `max_iterations = None` never triggers the cap break. -/
theorem capLen_none : ∀ (fuel i : Nat), capLen none i fuel = fuel := by
  intro fuel
  induction fuel with
  | zero => intro i; rfl
  | succ f ih =>
    intro i
    unfold capLen
    rw [show capReached none (i + 1) = false from rfl, if_neg (by simp), ih]

/-- `max_iterations = 0` is falsy, so the cap check never fires. -/
theorem capReached_zero (it : Nat) : capReached (some 0) it = false := by
  simp [capReached]

/-- With `max_iterations = 0` the loop runs for as long as the fuel allows. -/
theorem capLen_zero : ∀ (fuel i : Nat), capLen (some 0) i fuel = fuel := by
  intro fuel
  induction fuel with
  | zero => intro i; rfl
  | succ f ih =>
    intro i
    unfold capLen
    rw [capReached_zero, if_neg (by simp), ih]

/-- With `max_iterations = 0` the loop never breaks on the cap. -/
theorem capHalted_zero : ∀ (fuel i : Nat), capHalted (some 0) i fuel = false := by
  intro fuel
  induction fuel with
  | zero => intro i; rfl
  | succ f ih =>
    intro i
    unfold capHalted
    rw [capReached_zero, if_neg (by simp), ih]

/-- For a positive cap the check fires exactly above the cap. -/
theorem capReached_some_pos (N : Int) (hN : 0 < N) (it : Nat) :
    capReached (some N) it = decide (N.toNat < it) := by
  have hne : N ≠ 0 := by omega
  have h1 : capReached (some N) it = (decide (N ≠ 0) && decide ((it : Int) > N)) :=
    rfl
  rw [h1, show (decide (N ≠ 0)) = true from by simp [hne], Bool.true_and]
  exact decide_eq_decide.mpr (by omega)

/-- With a positive cap the loop runs `min fuel (cap - i)` further turns. -/
theorem capLen_some_pos (N : Int) (hN : 0 < N) :
    ∀ (fuel i : Nat), capLen (some N) i fuel = min fuel (N.toNat - i) := by
  intro fuel
  induction fuel with
  | zero => intro i; simp [capLen]
  | succ f ih =>
    intro i
    unfold capLen
    rw [capReached_some_pos N hN]
    by_cases h : N.toNat < i + 1
    · rw [if_pos (decide_eq_true h)]
      omega
    · rw [if_neg (by simpa using h), ih]
      omega

/-- With a positive cap and enough fuel the loop does break on the cap. -/
theorem capHalted_some_pos (N : Int) (hN : 0 < N) :
    ∀ (fuel i : Nat), N.toNat < i + fuel → 0 < fuel →
      capHalted (some N) i fuel = true := by
  intro fuel
  induction fuel with
  | zero => intro i h h0; omega
  | succ f ih =>
    intro i h h0
    unfold capHalted
    rw [capReached_some_pos N hN]
    by_cases hc : N.toNat < i + 1
    · rw [if_pos (decide_eq_true hc)]
    · rw [if_neg (by simpa using hc)]
      exact ih (i + 1) (by omega) (by omega)

/-- Inversion of a completed `run_autonomous_agent` call: recover the
detected maturity, the spec-phase result, and the loop the turns came from. -/
theorem run_finished_inv (d : DirModel) (cfg : RunConfig) (env : Env)
    (fs0 : FS) (fuel : Nat) (se : List SpecEvent) (fr : Bool) (fsL : FS)
    (turns : List Turn) (capped : Bool)
    (h : run_autonomous_agent d cfg env fs0 fuel =
          .ok (.finished se fr fsL turns capped)) :
    ∃ m det, detect_project_maturity d = .ok (m, det) ∧
      (specPhase cfg m env fs0).2 = .ok fsL ∧
      se = (specPhase cfg m env fs0).1 ∧
      fr = !fsL.manifest ∧
      turns = (runLoop cfg.max_iterations env (!fsL.manifest)
        (firstRoleFor (!fsL.manifest) m) fsL 0 fuel).1 ∧
      capped = (runLoop cfg.max_iterations env (!fsL.manifest)
        (firstRoleFor (!fsL.manifest) m) fsL 0 fuel).2 := by
  unfold run_autonomous_agent at h
  split at h
  · exact absurd h (by simp)
  · split at h
    · exact absurd h (by simp)
    · rename_i xd m det hd xs fs1 hs
      simp only [Except.ok.injEq, RunResult.finished.injEq] at h
      obtain ⟨h1, h2, h3, h4, h5⟩ := h
      subst h3
      exact ⟨m, det, hd, hs, h1.symm, h2.symm, h4.symm, h5.symm⟩

/-! ## Characterization of the maturity detector -/

/-- The commit count `detect_project_maturity` ends up with on every
non-raising path. -/
def commit_count_of (d : DirModel) : Int :=
  if d.hasGit then
    match d.gitQuery with
    | .timeout => 0
    | .execNotFound => 0
    | .finished rc out => if rc = 0 then (pyInt (pyStrip out)).getD 0 else 0
  else 0

/-- When `.git` exists but the `git` executable is absent, the
`FileNotFoundError` from `subprocess.run` is not among the exceptions caught
at line 110, so `detect_project_maturity` propagates it. -/
theorem detect_execNotFound (d : DirModel) (hg : d.hasGit = true)
    (hq : d.gitQuery = .execNotFound) :
    detect_project_maturity d = .error .fileNotFoundError := by
  unfold detect_project_maturity commitCountTry
  rw [hg, hq]
  rfl

/-- On every other input `detect_project_maturity` returns normally, with the
commit count of `commit_count_of` and the maturity decision of line 140. -/
theorem detect_eval_ok (d : DirModel)
    (hok : d.hasGit = false ∨ d.gitQuery ≠ GitQueryResult.execNotFound) :
    detect_project_maturity d = .ok
      (if d.hasGit = true ∧ 5 ≤ commit_count_of d ∧
           0 < (collectSources d).1.length
         then ProjectMaturity.existing else ProjectMaturity.greenfield,
       ⟨d.hasGit, commit_count_of d, (collectSources d).1,
        (collectSources d).2⟩) := by
  obtain ⟨hasGit, gitQuery, rglob⟩ := d
  cases hasGit with
  | false => rfl
  | true =>
    cases gitQuery with
    | timeout => rfl
    | execNotFound => simp at hok
    | finished rc out =>
      by_cases hrc : rc = 0
      · cases hp : pyInt (pyStrip out) with
        | none =>
          simp [detect_project_maturity, commitCountTry, commit_count_of,
            hrc, hp]
        | some n =>
          simp [detect_project_maturity, commitCountTry, commit_count_of,
            hrc, hp]
      · simp [detect_project_maturity, commitCountTry, commit_count_of, hrc]

/-- The found-files accumulator of the source scan ends empty exactly when it
started empty and no extension matched any file. -/
theorem collectLoop_fst_eq_nil (d : DirModel) :
    ∀ (exts : List (String × String)) (found langs : List String),
      ((collectLoop d exts (found, langs)).1 = [] ↔
        found = [] ∧ ∀ p ∈ exts, d.rglob p.1 = []) := by
  intro exts
  induction exts with
  | nil => intro found langs; simp [collectLoop]
  | cons e rest ih =>
    intro found langs
    obtain ⟨ext, lang⟩ := e
    unfold collectLoop
    split
    · rename_i hfe
      have hrg : d.rglob ext = [] := by
        rcases List.take_eq_nil_iff.mp hfe with h | h
        · omega
        · exact h
      rw [ih]
      simp [hrg]
    · rename_i hfe
      have hrg : d.rglob ext ≠ [] := by
        intro hc
        exact hfe (by rw [hc]; rfl)
      rw [ih]
      have h3 : found ++ ((d.rglob ext).take 5).take 3 ≠ [] := by
        intro hc
        rcases List.append_eq_nil.mp hc with ⟨-, h2⟩
        rcases List.take_eq_nil_iff.mp h2 with h | h
        · omega
        · rcases List.take_eq_nil_iff.mp h with h' | h'
          · omega
          · exact hrg h'
      simp only [h3, false_and, false_iff]
      rintro ⟨-, hall⟩
      exact hrg (hall (ext, lang) (List.mem_cons_self _ _))

/-- `source_files_found` is nonempty iff some recognized extension matched at
least one file. -/
theorem collectSources_ne_nil (d : DirModel) :
    (collectSources d).1 ≠ [] ↔
      ∃ p ∈ source_extensions, d.rglob p.1 ≠ [] := by
  unfold collectSources
  rw [ne_eq, collectLoop_fst_eq_nil]
  push_neg
  simp

/-! ## Lemmas about the spec-phase gate -/

/-- Inverting the per-session gate: it succeeds exactly with a `True` session
result, passing the session's filesystem through. -/
theorem gateOn_ok (ev : SpecEvent) (res : Bool × FS) (fs1 : FS)
    (h : (gateOn ev res).2 = .ok fs1) : res.1 = true ∧ res.2 = fs1 := by
  unfold gateOn at h
  split at h
  · rename_i hc
    exact ⟨hc, by injection h⟩
  · exact absurd h (by simp)

/-- A successful interactive audit leaves the spec file present. -/
theorem run_interactive_audit_created (s : InteractiveSessionEnv) (fs : FS)
    (h : (run_interactive_audit s fs).1 = true) :
    ((run_interactive_audit s fs).2).spec = true := by
  obtain ⟨res, fsAfter⟩ := s
  cases res
  · exact h
  · simp [run_interactive_audit] at h

/-- A successful interactive spec interview leaves the spec file present. -/
theorem run_interactive_spec_generation_created (s : InteractiveSessionEnv)
    (fs : FS) (h : (run_interactive_spec_generation s fs).1 = true) :
    ((run_interactive_spec_generation s fs).2).spec = true := by
  obtain ⟨res, fsAfter⟩ := s
  cases res
  · exact h
  · simp [run_interactive_spec_generation] at h

/-- A successful non-interactive spec generation leaves the spec file
present. -/
theorem run_non_interactive_created (r : CapturedResult) (fs : FS)
    (h : (run_non_interactive_spec_generation r fs).1 = true) :
    ((run_non_interactive_spec_generation r fs).2).spec = true := by
  cases r with
  | completed rc out =>
    by_cases hrc : rc ≠ 0
    · simp [run_non_interactive_spec_generation, hrc] at h
    · by_cases hout : pyStrip out = ""
      · simp [run_non_interactive_spec_generation, hrc, hout] at h
      · simp [run_non_interactive_spec_generation, hrc, hout]
  | binNotFound => simp [run_non_interactive_spec_generation] at h

/-- The spec phase never runs more than one spec-generation session: the
gate is checked once per run, not retried. -/
theorem specPhase_events_length (cfg : RunConfig) (m : ProjectMaturity)
    (env : Env) (fs : FS) : ((specPhase cfg m env fs).1).length ≤ 1 := by
  unfold specPhase
  repeat' split
  all_goals simp [gateOn]

/-- When the spec file is absent at startup, the main loop is only reached if
the spec-phase session actually left the spec file present: a spec phase that
does not produce `app_spec.txt` halts the run. -/
theorem specPhase_ok_spec (cfg : RunConfig) (m : ProjectMaturity) (env : Env)
    (fs : FS) (h0 : fs.spec = false) (fs1 : FS)
    (h : (specPhase cfg m env fs).2 = .ok fs1) : fs1.spec = true := by
  unfold specPhase at h
  rw [if_neg (by simp [h0])] at h
  split at h
  · obtain ⟨hc, he⟩ := gateOn_ok _ _ _ h
    rw [← he]
    exact run_interactive_audit_created _ _ hc
  · split at h
    · split at h
      · obtain ⟨hc, he⟩ := gateOn_ok _ _ _ h
        rw [← he]
        exact run_interactive_audit_created _ _ hc
      · split at h
        · exact absurd h (by simp)
        · split at h
          · exact absurd h (by simp)
          · obtain ⟨hc, he⟩ := gateOn_ok _ _ _ h
            rw [← he]
            exact run_interactive_spec_generation_created _ _ hc
    · split at h
      · exact absurd h (by simp)
      · split at h
        · exact absurd h (by simp)
        · split at h
          · obtain ⟨hc, he⟩ := gateOn_ok _ _ _ h
            rw [← he]
            exact run_non_interactive_created _ _ hc
          · obtain ⟨hc, he⟩ := gateOn_ok _ _ _ h
            rw [← he]
            exact run_interactive_spec_generation_created _ _ hc

/-- The pending first-run prompt is the coding prompt only when there is no
pending prompt at all. -/
theorem firstRoleFor_ne_coding (fr : Bool) (m : ProjectMaturity) :
    ((firstRoleFor fr m).getD Role.coding = Role.coding ↔ fr = false) := by
  cases fr <;> cases m <;> simp [firstRoleFor]

/-- Facts about every turn of a completed run, at the
`run_autonomous_agent` level: header flag, session output, QA policy, role
selection, iteration bounds, and the directory state at turn 1. -/
theorem run_turn_facts (d : DirModel) (cfg : RunConfig) (env : Env) (fs0 : FS)
    (fuel : Nat) (se : List SpecEvent) (fr : Bool) (fsL : FS)
    (turns : List Turn) (capped : Bool) (m : ProjectMaturity) (det : Details)
    (hd : detect_project_maturity d = .ok (m, det))
    (h : run_autonomous_agent d cfg env fs0 fuel =
          .ok (.finished se fr fsL turns capped)) :
    ∀ t ∈ turns,
      t.headerFirstRun = fr ∧
      t.output = (run_cli_session (env.codingProc t.iteration)).1 ∧
      t.returncode = (run_cli_session (env.codingProc t.iteration)).2 ∧
      t.qa = (if t.returncode = 0 ∧ (fr = false ∨ 1 < t.iteration)
                then some (run_qa_session (env.qaProc t.iteration)) else none) ∧
      t.role = (if t.iteration = 1 then (firstRoleFor fr m).getD Role.coding
                  else Role.coding) ∧
      1 ≤ t.iteration ∧
      (t.iteration = 1 → t.fsAtStart = fsL) := by
  intro t ht
  obtain ⟨m', det', hd', hs, hse, hfr, hturns, hcap⟩ :=
    run_finished_inv d cfg env fs0 fuel se fr fsL turns capped h
  rw [hd] at hd'
  injection hd' with hpair
  obtain ⟨hm, -⟩ := Prod.mk.injEq .. |>.mp hpair
  subst hm
  rw [← hfr] at hturns
  rw [hturns] at ht
  exact runLoop_turn_facts cfg.max_iterations env fr fuel 0
    (firstRoleFor fr m) fsL t ht

/-- How many turns the loop runs is fully determined by the cap and the
fuel. -/
theorem runLoop_length (cap : Option Int) (env : Env) (fr : Bool)
    (fuel i : Nat) (r : Option Role) (fs : FS) :
    ((runLoop cap env fr r fs i fuel).1).length = capLen cap i fuel := by
  have h := congrArg List.length (runLoop_iterations cap env fr fuel i r fs)
  simpa using h

/-- With no pending first-run prompt every turn is a coding turn, so the
coding filter keeps the whole list. -/
theorem runLoop_none_filter_coding (cap : Option Int) (env : Env) (fr : Bool)
    (fuel i : Nat) (fs : FS) :
    ((runLoop cap env fr none fs i fuel).1).filter
        (fun t => decide (t.role = Role.coding)) =
      (runLoop cap env fr none fs i fuel).1 := by
  apply List.filter_eq_self.mpr
  intro a ha
  simp [runLoop_none_coding cap env fr fuel i fs a ha]

/-- Inversion of a run that halted at the spec gate. -/
theorem run_halt_inv (d : DirModel) (cfg : RunConfig) (env : Env) (fs0 : FS)
    (fuel : Nat) (se : List SpecEvent) (reason : HaltReason)
    (h : run_autonomous_agent d cfg env fs0 fuel =
          .ok (.specGateHalt se reason)) :
    ∃ m det, detect_project_maturity d = .ok (m, det) ∧
      (specPhase cfg m env fs0).2 = .error reason ∧
      se = (specPhase cfg m env fs0).1 := by
  unfold run_autonomous_agent at h
  split at h
  · exact absurd h (by simp)
  · split at h
    · rename_i xd m det hd xs r hs
      simp only [Except.ok.injEq, RunResult.specGateHalt.injEq] at h
      obtain ⟨h1, h2⟩ := h
      subst h2
      exact ⟨m, det, hd, hs, h1.symm⟩
    · exact absurd h (by simp)

/-! ## Concrete fixtures for witnesses and counterexamples -/

/-- A project directory with no version control and no source files. -/
def dirNoGit : DirModel := ⟨false, .timeout, fun _ => []⟩

/-- A directory with `.git` present but the `git` executable absent from the
execution path. -/
def dirGitNoExec : DirModel := ⟨true, .execNotFound, fun _ => []⟩

/-- A directory with `.git`, a timing-out commit-count query, and one Python
source file. -/
def dirGitTimeout : DirModel :=
  ⟨true, .timeout, fun e => if e = ".py" then ["main.py"] else []⟩

/-- A directory with `.git` and one Python source file, parameterized by the
commit-count query outcome. -/
def dirGitPy (q : GitQueryResult) : DirModel :=
  ⟨true, q, fun e => if e = ".py" then ["main.py"] else []⟩

/-- An environment whose coding and QA sessions always complete with exit
code 0 and leave the directory unchanged; spec-phase sessions create the
spec file. -/
def envOk : Env :=
  ⟨none, none, ⟨.ended, ⟨true, false⟩⟩, ⟨.ended, ⟨true, false⟩⟩,
   .completed 0 "spec text", fun _ => .completed 0, fun _ => .completed 0,
   fun _ fs => fs, fun _ fs => fs⟩

/-- Like `envOk`, but every completed coding session creates the manifest
file. -/
def envCreatesManifest : Env :=
  { envOk with codingEff := fun _ fs => { fs with manifest := true } }

/-- Like `envOk`, but the `claude` executable is absent during every coding
session. -/
def envNoClaude : Env :=
  { envOk with codingProc := fun _ => SubprocResult.binNotFound }

/-- Like `envOk`, but the audit session ends (operator exit) without having
created the spec file. -/
def envSpecFails : Env :=
  { envOk with auditSession := ⟨.ended, ⟨false, false⟩⟩ }

/-- A run configuration with only an iteration cap set. -/
def cfgMax (n : Int) : RunConfig := ⟨some n, none, false, false⟩

/-- A run configuration with no iteration cap. -/
def cfgNoCap : RunConfig := ⟨none, none, false, false⟩

/-- A run configuration with the `--audit` flag set. -/
def cfgAudit : RunConfig := ⟨none, none, false, true⟩

/-! ## Claims -/

/-- **C1.**  Within the main loop, a coding session that exits with code 0 is
immediately followed, within the same turn, by exactly one QA invocation
(`t.qa = some _` records the single `run_qa_session` call of that turn); a
coding session that exits non-zero is followed by zero QA invocations; and
the first-run initializer/enhancer turn — iteration 1 when the manifest was
absent at the loop's start — is never followed by a QA invocation, regardless
of its outcome. -/
theorem c1_qa_follow_up (d : DirModel) (cfg : RunConfig) (env : Env)
    (fs0 : FS) (fuel : Nat) (se : List SpecEvent) (fr : Bool) (fsL : FS)
    (turns : List Turn) (capped : Bool) (m : ProjectMaturity) (det : Details)
    (hd : detect_project_maturity d = .ok (m, det))
    (h : run_autonomous_agent d cfg env fs0 fuel =
          .ok (.finished se fr fsL turns capped)) :
    ∀ t ∈ turns,
      (t.role = Role.coding → t.returncode = 0 →
        t.qa = some (run_qa_session (env.qaProc t.iteration))) ∧
      (t.returncode ≠ 0 → t.qa = none) ∧
      (fr = true → t.iteration = 1 → t.qa = none) := by
  intro t ht
  obtain ⟨h1, h2, h3, h4, h5, h6, h7⟩ :=
    run_turn_facts d cfg env fs0 fuel se fr fsL turns capped m det hd h t ht
  refine ⟨?_, ?_, ?_⟩
  · intro hrole hrc
    have hcond : t.returncode = 0 ∧ (fr = false ∨ 1 < t.iteration) := by
      refine ⟨hrc, ?_⟩
      by_cases hit : t.iteration = 1
      · rw [h5, if_pos hit] at hrole
        exact Or.inl ((firstRoleFor_ne_coding fr m).mp hrole)
      · exact Or.inr (by omega)
    rw [h4, if_pos hcond]
  · intro hrc
    rw [h4, if_neg]
    rintro ⟨hc, -⟩
    exact hrc hc
  · intro hfr hit
    rw [h4, if_neg]
    rintro ⟨-, hor⟩
    rcases hor with hf | hgt
    · rw [hfr] at hf
      exact absurd hf (by simp)
    · omega

/-- Witness for C1: a concrete two-turn run (spec and manifest present at
startup, every session succeeding) in which turn 1's coding session is
followed by exactly one QA invocation. -/
theorem c1_qa_follow_up_witness :
    (⟨1, ⟨true, true⟩, false, Role.coding, "", 0, some ("", 0)⟩ : Turn).qa =
      some (run_qa_session (envOk.qaProc 1)) := by
  have h := c1_qa_follow_up dirNoGit (cfgMax 2) envOk ⟨true, true⟩ 3 [] false
    ⟨true, true⟩
    [⟨1, ⟨true, true⟩, false, Role.coding, "", 0, some ("", 0)⟩,
     ⟨2, ⟨true, true⟩, false, Role.coding, "", 0, some ("", 0)⟩] true
    ProjectMaturity.greenfield ⟨false, 0, [], []⟩ rfl rfl
  obtain ⟨h2, -, -⟩ := h _ (List.mem_cons_self _ _)
  exact h2 rfl rfl

/-- **C5.**  In every run at most one turn is an initializer/enhancer turn,
and any such turn is the very first loop iteration, runs against a directory
whose manifest file is absent (the manifest cannot exist at a turn on which
these roles are selected), and carries the enhancer role exactly when
maturity is `existing` and the initializer role otherwise. -/
theorem c5_first_role_once (d : DirModel) (cfg : RunConfig) (env : Env)
    (fs0 : FS) (fuel : Nat) (se : List SpecEvent) (fr : Bool) (fsL : FS)
    (turns : List Turn) (capped : Bool) (m : ProjectMaturity) (det : Details)
    (hd : detect_project_maturity d = .ok (m, det))
    (h : run_autonomous_agent d cfg env fs0 fuel =
          .ok (.finished se fr fsL turns capped)) :
    ((turns.filter (fun t => decide (t.role ≠ Role.coding))).length ≤ 1) ∧
    ∀ t ∈ turns, t.role ≠ Role.coding →
      t.iteration = 1 ∧ t.fsAtStart = fsL ∧ fsL.manifest = false ∧
      t.role = (if m = ProjectMaturity.existing then Role.enhancer
                  else Role.initializer) := by
  obtain ⟨m', det', hd', hs, hse, hfr, hturns, hcap⟩ :=
    run_finished_inv d cfg env fs0 fuel se fr fsL turns capped h
  constructor
  · rw [hturns]
    cases fuel with
    | zero => simp [runLoop]
    | succ f =>
      rw [runLoop]
      split
      · simp
      · rw [List.filter_cons]
        have hnil :
            ((runLoop cfg.max_iterations env (!fsL.manifest) none
                (runTurn env (!fsL.manifest)
                  ((firstRoleFor (!fsL.manifest) m').getD Role.coding) (0 + 1)
                  fsL).2 (0 + 1) f).1).filter
              (fun t => decide (t.role ≠ Role.coding)) = [] := by
          apply List.filter_eq_nil_iff.mpr
          intro a ha
          simp [runLoop_none_coding _ _ _ _ _ _ a ha]
        split
        · rw [hnil]
          simp
        · rw [hnil]
          simp
  · intro t ht hrole
    obtain ⟨h1, h2, h3, h4, h5, h6, h7⟩ :=
      run_turn_facts d cfg env fs0 fuel se fr fsL turns capped m det hd h t ht
    have hit : t.iteration = 1 := by
      by_contra hne
      rw [h5, if_neg hne] at hrole
      exact hrole rfl
    have hfr1 : fr = true := by
      by_contra hfrne
      have hfalse : fr = false := by
        cases fr
        · rfl
        · exact absurd rfl hfrne
      rw [h5, if_pos hit] at hrole
      exact hrole ((firstRoleFor_ne_coding fr m).mpr hfalse)
    refine ⟨hit, h7 hit, ?_, ?_⟩
    · rw [hfr1] at hfr
      cases hm : fsL.manifest
      · rfl
      · rw [hm] at hfr
        exact absurd hfr.symm (by simp)
    · rw [h5, if_pos hit, hfr1]
      rfl

/-- Witness for C5 at a concrete first run: the initializer runs exactly once
(iteration 1), every later turn is a coding turn. -/
theorem c5_first_role_once_witness :
    (([⟨1, ⟨true, false⟩, true, Role.initializer, "", 0, none⟩,
       ⟨2, ⟨true, false⟩, true, Role.coding, "", 0, some ("", 0)⟩] :
        List Turn).filter (fun t => decide (t.role ≠ Role.coding))).length ≤ 1 :=
  (c5_first_role_once dirNoGit (cfgMax 2) envOk ⟨true, false⟩ 3 [] true
    ⟨true, false⟩
    [⟨1, ⟨true, false⟩, true, Role.initializer, "", 0, none⟩,
     ⟨2, ⟨true, false⟩, true, Role.coding, "", 0, some ("", 0)⟩] true
    ProjectMaturity.greenfield ⟨false, 0, [], []⟩ rfl rfl).1

/-- **C9.**  When the manifest is absent at the loop's start, the role of
each turn depends only on the turn index: iteration 1 runs the pending
initializer/enhancer prompt and every later iteration runs the coding prompt.
The statement quantifies over every outcome oracle, so it holds in particular
when the first session fails or never creates the manifest: the pending
prompt is consumed unconditionally on iteration 1. -/
theorem c9_role_only_turn_index (d : DirModel) (cfg : RunConfig) (env : Env)
    (fs0 : FS) (fuel : Nat) (se : List SpecEvent) (fsL : FS)
    (turns : List Turn) (capped : Bool) (m : ProjectMaturity) (det : Details)
    (hd : detect_project_maturity d = .ok (m, det))
    (h : run_autonomous_agent d cfg env fs0 fuel =
          .ok (.finished se true fsL turns capped)) :
    ∀ t ∈ turns,
      t.role = (if t.iteration = 1
                  then (if m = ProjectMaturity.existing then Role.enhancer
                        else Role.initializer)
                  else Role.coding) := by
  intro t ht
  obtain ⟨-, -, -, -, h5, -, -⟩ :=
    run_turn_facts d cfg env fs0 fuel se true fsL turns capped m det hd h t ht
  rw [h5]
  by_cases hit : t.iteration = 1
  · rw [if_pos hit, if_pos hit]
    rfl
  · rw [if_neg hit, if_neg hit]

/-- Witness for C9 at a concrete run in which the first (initializer) session
fails (`claude` binary absent, exit code 1) and never creates the manifest:
iteration 2 still runs the coding prompt. -/
theorem c9_role_only_turn_index_witness :
    (⟨2, ⟨true, false⟩, true, Role.coding, "claude CLI not found", 1, none⟩ :
        Turn).role =
      (if (2 : Nat) = 1
        then (if ProjectMaturity.greenfield = ProjectMaturity.existing
              then Role.enhancer else Role.initializer)
        else Role.coding) :=
  c9_role_only_turn_index dirNoGit (cfgMax 2) envNoClaude ⟨true, false⟩ 3 []
    ⟨true, false⟩
    [⟨1, ⟨true, false⟩, true, Role.initializer, "claude CLI not found", 1,
      none⟩,
     ⟨2, ⟨true, false⟩, true, Role.coding, "claude CLI not found", 1, none⟩]
    true ProjectMaturity.greenfield ⟨false, 0, [], []⟩ rfl rfl
    ⟨2, ⟨true, false⟩, true, Role.coding, "claude CLI not found", 1, none⟩
    (List.mem_cons_of_mem _ (List.mem_cons_self _ _))

/-- **C4 counterexample.**  With `max_iterations = 1` and the manifest absent
at the loop's start, the single iteration the cap allows is the initializer
session: the run halts normally on the cap having executed zero coding-phase
turns, not one — refuting the claim that a run with cap N executes exactly N
coding-phase turns after the first-session phase. -/
theorem c4_counterexample :
    run_autonomous_agent dirNoGit (cfgMax 1) envOk ⟨true, false⟩ 2 =
      .ok (.finished [] true ⟨true, false⟩
        [⟨1, ⟨true, false⟩, true, Role.initializer, "", 0, none⟩] true) ∧
    (([⟨1, ⟨true, false⟩, true, Role.initializer, "", 0, none⟩] :
        List Turn).filter (fun t => decide (t.role = Role.coding))).length =
      0 :=
  ⟨rfl, rfl⟩

/-- **C4 (amended).**  With `max_iterations = N > 0` (and enough fuel in the
model), the loop executes exactly N iterations and then halts normally on the
cap; all N are coding-phase turns when the manifest existed at the loop's
start, while when it was absent the first iteration is the
initializer/enhancer session, so exactly N - 1 coding-phase turns follow it. -/
theorem c4_amended_cap (d : DirModel) (cfg : RunConfig) (env : Env) (fs0 : FS)
    (fuel : Nat) (se : List SpecEvent) (fr : Bool) (fsL : FS)
    (turns : List Turn) (capped : Bool) (N : Int)
    (hN : cfg.max_iterations = some N) (hpos : 0 < N)
    (hfuel : N.toNat + 1 ≤ fuel)
    (h : run_autonomous_agent d cfg env fs0 fuel =
          .ok (.finished se fr fsL turns capped)) :
    turns.length = N.toNat ∧ capped = true ∧
    (turns.filter (fun t => decide (t.role = Role.coding))).length =
      N.toNat - (if fr = true then 1 else 0) := by
  obtain ⟨m', det', hd', hs, hse, hfr, hturns, hcap⟩ :=
    run_finished_inv d cfg env fs0 fuel se fr fsL turns capped h
  have hlen : turns.length = N.toNat := by
    rw [hturns, runLoop_length, hN, capLen_some_pos N hpos]
    omega
  refine ⟨hlen, ?_, ?_⟩
  · rw [hcap, runLoop_halted, hN, capHalted_some_pos N hpos]
    · omega
    · omega
  · cases fuel with
    | zero => omega
    | succ f =>
      rw [hturns, hN]
      rw [runLoop]
      rw [capReached_some_pos N hpos]
      rw [if_neg (by simp; omega)]
      rw [List.filter_cons]
      have htail :
          ((runLoop (some N) env (!fsL.manifest) none
              (runTurn env (!fsL.manifest)
                ((firstRoleFor (!fsL.manifest) m').getD Role.coding) (0 + 1)
                fsL).2 (0 + 1) f).1).filter
            (fun t => decide (t.role = Role.coding)) =
          (runLoop (some N) env (!fsL.manifest) none
              (runTurn env (!fsL.manifest)
                ((firstRoleFor (!fsL.manifest) m').getD Role.coding) (0 + 1)
                fsL).2 (0 + 1) f).1 :=
        runLoop_none_filter_coding ..
      have htlen :
          ((runLoop (some N) env (!fsL.manifest) none
              (runTurn env (!fsL.manifest)
                ((firstRoleFor (!fsL.manifest) m').getD Role.coding) (0 + 1)
                fsL).2 (0 + 1) f).1).length = N.toNat - 1 := by
        rw [runLoop_length, capLen_some_pos N hpos]
        omega
      have hhead :
          ((runTurn env (!fsL.manifest)
              ((firstRoleFor (!fsL.manifest) m').getD Role.coding) (0 + 1)
              fsL).1).role =
            (firstRoleFor (!fsL.manifest) m').getD Role.coding := by
        rw [runTurn_fields]
      cases hm : fsL.manifest with
      | true =>
        have hfrf : fr = false := by rw [hfr, hm]; rfl
        rw [hm] at htail htlen hhead
        rw [if_pos]
        · rw [List.length_cons, htail, htlen, hfrf]
          simp
          omega
        · rw [hhead]
          simp [firstRoleFor]
      | false =>
        have hfrt : fr = true := by rw [hfr, hm]; rfl
        rw [hm] at htail htlen hhead
        rw [if_neg]
        · rw [htail, htlen, hfrt]
          simp
        · rw [hhead]
          cases m' <;> simp [firstRoleFor]

/-- Witness for the amended C4: a concrete run with cap 2 and the manifest
present at the loop's start executes exactly 2 iterations, both coding
turns, and halts on the cap. -/
theorem c4_amended_cap_witness :
    ([⟨1, ⟨true, true⟩, false, Role.coding, "", 0, some ("", 0)⟩,
      ⟨2, ⟨true, true⟩, false, Role.coding, "", 0, some ("", 0)⟩] :
        List Turn).length = (2 : Int).toNat ∧
    true = true ∧
    (([⟨1, ⟨true, true⟩, false, Role.coding, "", 0, some ("", 0)⟩,
       ⟨2, ⟨true, true⟩, false, Role.coding, "", 0, some ("", 0)⟩] :
        List Turn).filter (fun t => decide (t.role = Role.coding))).length =
      (2 : Int).toNat - (if false = true then 1 else 0) :=
  c4_amended_cap dirNoGit (cfgMax 2) envOk ⟨true, true⟩ 3 [] false
    ⟨true, true⟩
    [⟨1, ⟨true, true⟩, false, Role.coding, "", 0, some ("", 0)⟩,
     ⟨2, ⟨true, true⟩, false, Role.coding, "", 0, some ("", 0)⟩] true 2
    rfl (by decide) (by decide) rfl

/-- **C10.**  `max_iterations = 0` is falsy in the cap check, so it behaves
as an absent cap, not as a zero-session run: the cap check never fires at any
iteration, and a run configured with cap 0 keeps executing turns for as long
as the model's fuel allows, never halting on the cap. -/
theorem c10_zero_cap_unlimited :
    (∀ it : Nat, capReached (some 0) it = false) ∧
    (∀ (d : DirModel) (cfg : RunConfig) (env : Env) (fs0 : FS) (fuel : Nat)
       (se : List SpecEvent) (fr : Bool) (fsL : FS) (turns : List Turn)
       (capped : Bool),
      cfg.max_iterations = some 0 →
      run_autonomous_agent d cfg env fs0 fuel =
        .ok (.finished se fr fsL turns capped) →
      turns.length = fuel ∧ capped = false) := by
  constructor
  · exact capReached_zero
  · intro d cfg env fs0 fuel se fr fsL turns capped hcap0 h
    obtain ⟨m', det', hd', hs, hse, hfr, hturns, hcap⟩ :=
      run_finished_inv d cfg env fs0 fuel se fr fsL turns capped h
    constructor
    · rw [hturns, runLoop_length, hcap0, capLen_zero]
    · rw [hcap, runLoop_halted, hcap0, capHalted_zero]

/-- Witness for C10: a concrete run with `max_iterations = 0` and fuel for
two turns runs both and does not halt on the cap. -/
theorem c10_zero_cap_unlimited_witness :
    ([⟨1, ⟨true, true⟩, false, Role.coding, "", 0, some ("", 0)⟩,
      ⟨2, ⟨true, true⟩, false, Role.coding, "", 0, some ("", 0)⟩] :
        List Turn).length = 2 ∧ false = false :=
  (c10_zero_cap_unlimited.2 dirNoGit ⟨some 0, none, false, false⟩ envOk
    ⟨true, true⟩ 2 [] false ⟨true, true⟩
    [⟨1, ⟨true, true⟩, false, Role.coding, "", 0, some ("", 0)⟩,
     ⟨2, ⟨true, true⟩, false, Role.coding, "", 0, some ("", 0)⟩] false
    rfl rfl)

/-- **C3.**  When the spec artifact is absent at startup, a run only reaches
the main loop — the only place initializer, enhancer, coding or QA sessions
run — if the spec-phase session left `app_spec.txt` present afterwards
(success is judged by the file on disk, not by the session's exit status);
otherwise the run ends in `specGateHalt`, which contains no turns and reports
the halt reason to the operator.  In both cases at most one spec-phase
session is attempted: the gate is not retried within the run. -/
theorem c3_spec_gate (d : DirModel) (cfg : RunConfig) (env : Env) (fs0 : FS)
    (fuel : Nat) (r : RunResult)
    (h0 : fs0.spec = false)
    (h : run_autonomous_agent d cfg env fs0 fuel = .ok r) :
    (∀ se fr fsL turns capped, r = .finished se fr fsL turns capped →
      fsL.spec = true ∧ se.length ≤ 1) ∧
    (∀ se reason, r = .specGateHalt se reason → se.length ≤ 1) := by
  constructor
  · intro se fr fsL turns capped hr
    subst hr
    obtain ⟨m', det', hd', hs, hse, hfr, hturns, hcap⟩ :=
      run_finished_inv d cfg env fs0 fuel se fr fsL turns capped h
    refine ⟨specPhase_ok_spec cfg m' env fs0 h0 fsL hs, ?_⟩
    rw [hse]
    exact specPhase_events_length cfg m' env fs0
  · intro se reason hr
    subst hr
    obtain ⟨m', det', hd', hs, hse⟩ :=
      run_halt_inv d cfg env fs0 fuel se reason h
    rw [hse]
    exact specPhase_events_length cfg m' env fs0

/-- Witness for C3: a concrete run (audit flag set) whose audit session ends
normally but leaves no spec file; the run halts at the gate after exactly one
spec session and no loop turns. -/
theorem c3_spec_gate_witness :
    ([SpecEvent.auditSession].length ≤ 1) ∧
    run_autonomous_agent dirNoGit cfgAudit envSpecFails ⟨false, false⟩ 5 =
      .ok (.specGateHalt [SpecEvent.auditSession] HaltReason.specNotCreated) :=
  ⟨(c3_spec_gate dirNoGit cfgAudit envSpecFails ⟨false, false⟩ 5
      (.specGateHalt [SpecEvent.auditSession] HaltReason.specNotCreated)
      rfl rfl).2 [SpecEvent.auditSession] HaltReason.specNotCreated rfl,
   rfl⟩

/-- **C6 counterexample.**  A run whose first (initializer) session creates
the manifest file: on turn 2 the directory already contains the manifest
(`fsAtStart.manifest = true`), yet the turn's session header still carries
the first-run flag computed before the loop (`headerFirstRun = true`) —
`manifestExists` is read once at line 575 and cached, not recomputed by
re-reading the filesystem on every turn as the claim states. -/
theorem c6_counterexample :
    run_autonomous_agent dirNoGit (cfgMax 2) envCreatesManifest
        ⟨true, false⟩ 3 =
      .ok (.finished [] true ⟨true, false⟩
        [⟨1, ⟨true, false⟩, true, Role.initializer, "", 0, none⟩,
         ⟨2, ⟨true, true⟩, true, Role.coding, "", 0, some ("", 0)⟩] true) ∧
    (⟨2, ⟨true, true⟩, true, Role.coding, "", 0, some ("", 0)⟩ :
        Turn).headerFirstRun = true ∧
    (⟨2, ⟨true, true⟩, true, Role.coding, "", 0, some ("", 0)⟩ :
        Turn).fsAtStart.manifest = true :=
  ⟨rfl, rfl, rfl⟩

/-- **C6 (amended).**  `specExists` is read once at startup and
`manifestExists` once after the spec phase (line 575); the resulting
`is_first_run` flag — like the once-computed maturity — is cached for the
whole run: every turn's session header reports the loop-entry value
`!fsAtLoopStart.manifest`, however the directory changes afterwards. -/
theorem c6_amended_cached_flags (d : DirModel) (cfg : RunConfig) (env : Env)
    (fs0 : FS) (fuel : Nat) (se : List SpecEvent) (fr : Bool) (fsL : FS)
    (turns : List Turn) (capped : Bool)
    (h : run_autonomous_agent d cfg env fs0 fuel =
          .ok (.finished se fr fsL turns capped)) :
    fr = !fsL.manifest ∧ ∀ t ∈ turns, t.headerFirstRun = fr := by
  obtain ⟨m', det', hd', hs, hse, hfr, hturns, hcap⟩ :=
    run_finished_inv d cfg env fs0 fuel se fr fsL turns capped h
  refine ⟨hfr, ?_⟩
  intro t ht
  rw [← hfr] at hturns
  rw [hturns] at ht
  obtain ⟨h1, -, -, -, -, -, -⟩ :=
    runLoop_turn_facts cfg.max_iterations env fr fuel 0
      (firstRoleFor fr m') fsL t ht
  exact h1

/-- Witness for the amended C6, at the counterexample's run: both turn
headers report the cached loop-entry flag. -/
theorem c6_amended_cached_flags_witness :
    (true = !(⟨true, false⟩ : FS).manifest) ∧
    ∀ t ∈ ([⟨1, ⟨true, false⟩, true, Role.initializer, "", 0, none⟩,
            ⟨2, ⟨true, true⟩, true, Role.coding, "", 0, some ("", 0)⟩] :
            List Turn),
      t.headerFirstRun = true :=
  c6_amended_cached_flags dirNoGit (cfgMax 2) envCreatesManifest
    ⟨true, false⟩ 3 [] true ⟨true, false⟩
    [⟨1, ⟨true, false⟩, true, Role.initializer, "", 0, none⟩,
     ⟨2, ⟨true, true⟩, true, Role.coding, "", 0, some ("", 0)⟩] true rfl

/-- **C8.**  A missing `claude` executable during a coding turn is reported
as a failed outcome — `run_cli_session` returns the "claude CLI not found"
diagnostic with exit code 1 instead of propagating a fault — and the loop
records the failure on that turn (no QA follow-up) and proceeds: how many
turns run is determined solely by the cap and the fuel, never cut short by a
failed session, and a failed turn that is not the cap-final one is followed
by a turn with the next iteration number. -/
theorem c8_binary_absent :
    (run_cli_session SubprocResult.binNotFound = ("claude CLI not found", 1)) ∧
    (∀ (d : DirModel) (cfg : RunConfig) (env : Env) (fs0 : FS) (fuel : Nat)
       (se : List SpecEvent) (fr : Bool) (fsL : FS) (turns : List Turn)
       (capped : Bool),
      run_autonomous_agent d cfg env fs0 fuel =
        .ok (.finished se fr fsL turns capped) →
      turns.length = capLen cfg.max_iterations 0 fuel ∧
      ∀ t ∈ turns, env.codingProc t.iteration = SubprocResult.binNotFound →
        t.output = "claude CLI not found" ∧ t.returncode = 1 ∧ t.qa = none ∧
        (t.iteration < turns.length →
          ∃ t' ∈ turns, t'.iteration = t.iteration + 1)) := by
  constructor
  · rfl
  · intro d cfg env fs0 fuel se fr fsL turns capped h
    obtain ⟨m', det', hd', hs, hse, hfr, hturns, hcap⟩ :=
      run_finished_inv d cfg env fs0 fuel se fr fsL turns capped h
    constructor
    · rw [hturns, runLoop_length]
    · intro t ht hproc
      rw [← hfr] at hturns
      have ht' := ht
      rw [hturns] at ht'
      obtain ⟨h1, h2, h3, h4, h5, h6, h7⟩ :=
        runLoop_turn_facts cfg.max_iterations env fr fuel 0
          (firstRoleFor fr m') fsL t ht'
      rw [hproc] at h2 h3
      refine ⟨h2, h3, ?_, ?_⟩
      · rw [h4, if_neg]
        rintro ⟨hc, -⟩
        rw [h3] at hc
        exact absurd hc (by simp [run_cli_session])
      · intro hlt
        have hmap := runLoop_iterations cfg.max_iterations env fr fuel 0
          (firstRoleFor fr m') fsL
        have hlen : turns.length = capLen cfg.max_iterations 0 fuel := by
          rw [hturns, runLoop_length]
        have hmem : t.iteration + 1 ∈
            ((runLoop cfg.max_iterations env fr
              (firstRoleFor fr m') fsL 0 fuel).1).map Turn.iteration := by
          rw [hmap]
          apply List.mem_range'_1.mpr
          constructor
          · omega
          · rw [hlen] at hlt
            omega
        rw [← hturns] at hmem
        obtain ⟨t', ht'mem, ht'iter⟩ := List.mem_map.mp hmem
        exact ⟨t', ht'mem, ht'iter⟩

/-- Witness for C8: a concrete run in which the `claude` binary is absent on
every turn — turn 1 reports the diagnostic with code 1 and no QA, and the
loop still proceeds to turn 2. -/
theorem c8_binary_absent_witness :
    ([⟨1, ⟨true, true⟩, false, Role.coding, "claude CLI not found", 1, none⟩,
      ⟨2, ⟨true, true⟩, false, Role.coding, "claude CLI not found", 1, none⟩] :
        List Turn).length = capLen (cfgMax 2).max_iterations 0 3 := by
  exact (c8_binary_absent.2 dirNoGit (cfgMax 2) envNoClaude ⟨true, true⟩ 3 []
    false ⟨true, true⟩
    [⟨1, ⟨true, true⟩, false, Role.coding, "claude CLI not found", 1, none⟩,
     ⟨2, ⟨true, true⟩, false, Role.coding, "claude CLI not found", 1, none⟩]
    true rfl).1

/-- Any normal return of the maturity detector has the commit count of
`commit_count_of`, the scan results of `collectSources`, and the maturity
decision of orchestrator.py line 140. -/
theorem detect_ok_char (d : DirModel) (m : ProjectMaturity) (det : Details)
    (h : detect_project_maturity d = .ok (m, det)) :
    det = ⟨d.hasGit, commit_count_of d, (collectSources d).1,
           (collectSources d).2⟩ ∧
    m = (if d.hasGit = true ∧ 5 ≤ commit_count_of d ∧
            0 < (collectSources d).1.length
          then ProjectMaturity.existing else ProjectMaturity.greenfield) := by
  have hok : d.hasGit = false ∨ d.gitQuery ≠ GitQueryResult.execNotFound := by
    by_cases hg : d.hasGit = true
    · right
      intro hq
      rw [detect_execNotFound d hg hq] at h
      exact absurd h (by simp)
    · left
      cases hdg : d.hasGit
      · rfl
      · exact absurd hdg hg
  rw [detect_eval_ok d hok] at h
  injection h with hpair
  obtain ⟨hm, hdet⟩ := Prod.mk.injEq .. |>.mp hpair
  exact ⟨hdet.symm, hm.symm⟩

/-- **C2.**  `detect_project_maturity` classifies a directory as `existing`
iff all three hold — a `.git` directory is present, the commit count is at
least 5, and at least one recognized source extension matched a file; every
directory without version control is classified `greenfield` regardless of
source files; and, holding everything else fixed, a commit-count query answer
of "4" yields `greenfield` while "5" yields `existing` (boundary exactly at
5). -/
theorem c2_detect_classification :
    (∀ (d : DirModel) (m : ProjectMaturity) (det : Details),
      detect_project_maturity d = .ok (m, det) →
      ((m = ProjectMaturity.existing ↔
          d.hasGit = true ∧ 5 ≤ det.commit_count ∧
          det.source_files_found ≠ []) ∧
       (det.source_files_found ≠ [] ↔
          ∃ p ∈ source_extensions, d.rglob p.1 ≠ []))) ∧
    (∀ d : DirModel, d.hasGit = false →
      ∃ det, detect_project_maturity d = .ok (ProjectMaturity.greenfield, det)) ∧
    (∀ d : DirModel, d.hasGit = true →
      (∃ p ∈ source_extensions, d.rglob p.1 ≠ []) →
      (∃ det, detect_project_maturity
          { d with gitQuery := GitQueryResult.finished 0 "5" } =
            .ok (ProjectMaturity.existing, det)) ∧
      (∃ det, detect_project_maturity
          { d with gitQuery := GitQueryResult.finished 0 "4" } =
            .ok (ProjectMaturity.greenfield, det))) := by
  refine ⟨?_, ?_, ?_⟩
  · intro d m det h
    obtain ⟨hdet, hm⟩ := detect_ok_char d m det h
    subst hdet
    constructor
    · rw [hm]
      by_cases hc : d.hasGit = true ∧ 5 ≤ commit_count_of d ∧
          0 < (collectSources d).1.length
      · rw [if_pos hc]
        simp only [true_iff]
        exact ⟨hc.1, hc.2.1, List.length_pos.mp hc.2.2⟩
      · rw [if_neg hc]
        constructor
        · intro he
          exact absurd he (by simp)
        · rintro ⟨h1, h2, h3⟩
          exact absurd ⟨h1, h2, List.length_pos.mpr h3⟩ hc
    · exact collectSources_ne_nil d
  · intro d hg
    have h := detect_eval_ok d (Or.inl hg)
    rw [if_neg (by rintro ⟨h1, -⟩; rw [hg] at h1; exact absurd h1 (by simp))] at h
    exact ⟨_, h⟩
  · intro d hg hsrc
    obtain ⟨hasGit, gitQuery, rglob⟩ := d
    cases hasGit with
    | false => exact absurd hg (by simp)
    | true =>
      have hlen5 : 0 <
          ((collectSources ⟨true, GitQueryResult.finished 0 "5", rglob⟩).1).length :=
        List.length_pos.mpr ((collectSources_ne_nil _).mpr hsrc)
      have hlen4 : 0 <
          ((collectSources ⟨true, GitQueryResult.finished 0 "4", rglob⟩).1).length :=
        List.length_pos.mpr ((collectSources_ne_nil _).mpr hsrc)
      constructor
      · have hc5 : commit_count_of ⟨true, GitQueryResult.finished 0 "5", rglob⟩ = 5 := rfl
        have h := detect_eval_ok ⟨true, GitQueryResult.finished 0 "5", rglob⟩
          (Or.inr (by simp))
        rw [if_pos ⟨rfl, hc5.ge, hlen5⟩] at h
        exact ⟨_, h⟩
      · have hc4 : commit_count_of ⟨true, GitQueryResult.finished 0 "4", rglob⟩ = 4 := rfl
        have h := detect_eval_ok ⟨true, GitQueryResult.finished 0 "4", rglob⟩
          (Or.inr (by simp))
        rw [if_neg (by rintro ⟨-, h2, -⟩; rw [hc4] at h2; omega)] at h
        exact ⟨_, h⟩

/-- Witness for C2 at a concrete directory (git, one Python file): the commit
count 5 yields `existing` and, everything else fixed, 4 yields
`greenfield`. -/
theorem c2_detect_classification_witness :
    (∃ det, detect_project_maturity
        { dirGitPy GitQueryResult.timeout with
            gitQuery := GitQueryResult.finished 0 "5" } =
          .ok (ProjectMaturity.existing, det)) ∧
    (∃ det, detect_project_maturity
        { dirGitPy GitQueryResult.timeout with
            gitQuery := GitQueryResult.finished 0 "4" } =
          .ok (ProjectMaturity.greenfield, det)) :=
  c2_detect_classification.2.2 (dirGitPy GitQueryResult.timeout) rfl
    ⟨(".py", "Python"), by decide, by decide⟩

/-- **C7 counterexample.**  `detect_project_maturity` can raise an unhandled
fault: with `.git` present but the `git` executable absent from the execution
path, `subprocess.run` raises `FileNotFoundError`, which the handler at
line 110 (catching only `TimeoutExpired` and `ValueError`) does not catch, so
it propagates out of the function. -/
theorem c7_counterexample :
    detect_project_maturity dirGitNoExec = .error PyExc.fileNotFoundError :=
  rfl

/-- **C7 (amended).**  Provided the `git` executable itself is invocable,
`detect_project_maturity` never raises an unhandled fault: it returns
normally, and whenever the commit-count query times out, version control is
missing, or the query's output is non-numeric, the commit count is treated as
0 — which, being below the threshold, forces the `greenfield`
classification. -/
theorem c7_amended_no_fault (d : DirModel)
    (hq : d.gitQuery ≠ GitQueryResult.execNotFound) :
    ∃ m det, detect_project_maturity d = .ok (m, det) ∧
      (d.hasGit = false → det.commit_count = 0) ∧
      (d.gitQuery = GitQueryResult.timeout → det.commit_count = 0) ∧
      (∀ out, d.gitQuery = GitQueryResult.finished 0 out →
        pyInt (pyStrip out) = none → det.commit_count = 0) ∧
      (det.commit_count = 0 → m = ProjectMaturity.greenfield) := by
  refine ⟨_, _, detect_eval_ok d (Or.inr hq), ?_, ?_, ?_, ?_⟩
  · intro hg
    show commit_count_of d = 0
    simp [commit_count_of, hg]
  · intro ht
    show commit_count_of d = 0
    simp [commit_count_of, ht]
  · intro out hfin hnone
    show commit_count_of d = 0
    simp [commit_count_of, hfin, hnone]
  · intro hcc
    have hcc' : commit_count_of d = 0 := hcc
    have hne : ¬(d.hasGit = true ∧ 5 ≤ commit_count_of d ∧
        0 < (collectSources d).1.length) := by
      rintro ⟨-, h5, -⟩
      rw [hcc'] at h5
      omega
    rw [if_neg hne]

/-- Witness for the amended C7: a directory with `.git` and a timed-out
commit-count query returns normally with commit count 0 and is classified
`greenfield`. -/
theorem c7_amended_no_fault_witness :
    ∃ m det, detect_project_maturity dirGitTimeout = .ok (m, det) ∧
      (dirGitTimeout.hasGit = false → det.commit_count = 0) ∧
      (dirGitTimeout.gitQuery = GitQueryResult.timeout →
        det.commit_count = 0) ∧
      (∀ out, dirGitTimeout.gitQuery = GitQueryResult.finished 0 out →
        pyInt (pyStrip out) = none → det.commit_count = 0) ∧
      (det.commit_count = 0 → m = ProjectMaturity.greenfield) :=
  c7_amended_no_fault dirGitTimeout (by simp [dirGitTimeout])

end AutoCode
